import Mathlib

/-!
Shallow embedding of the Paper-gen repository (iterative paper generation
workflow, scoring parser, markdown-to-LaTeX converter) and proofs about it.

Text is modelled as `List Char` (Python `str` is a sequence of characters).
Python regular-expression searches are transcribed as explicit left-to-right
scans with the same leftmost-match semantics.
-/

set_option maxRecDepth 4000

abbrev LC := List Char

/-- Python `\s` (ASCII range, which is all that the program's protocol uses). -/
def isPySpace (c : Char) : Bool :=
  c = ' ' || c = '\t' || c = '\n' || c = '\r' || c = '\x0b' || c = '\x0c'

/-- Python `\d` (ASCII digits, which is all the scoring protocol produces). -/
def isPyDigit (c : Char) : Bool :=
  '0' ≤ c && c ≤ '9'

/-- Value of a string of decimal digits, as Python `int(...)` (unbounded). -/
def digitsToNat (l : LC) : Nat :=
  l.foldl (fun acc c => 10 * acc + (c.toNat - '0'.toNat)) 0

/-- Python `str.lower()` on the ASCII texts handled by the program. -/
def lowerLC (l : LC) : LC :=
  l.map Char.toLower

/-- Python `str.strip()` with no arguments: remove whitespace at both ends. -/
def pyStrip (l : LC) : LC :=
  ((l.dropWhile isPySpace).reverse.dropWhile isPySpace).reverse

/-- Does `t` start with the (already lowercased) pattern `p`, comparing
case-insensitively (as `re.IGNORECASE` does on ASCII labels)? -/
def startsWithCI : LC → LC → Bool
  | [], _ => true
  | _ :: _, [] => false
  | p :: ps, t :: ts => p = t.toLower && startsWithCI ps ts

/-- Does `t` start with `p` exactly? -/
def startsWithLC : LC → LC → Bool
  | [], _ => true
  | _ :: _, [] => false
  | p :: ps, t :: ts => p = t && startsWithLC ps ts

/-- Does `t` contain `p` (case-insensitively) as a substring? -/
def containsCI (p : LC) : LC → Bool
  | [] => startsWithCI p []
  | t :: ts => startsWithCI p (t :: ts) || containsCI p ts

/-- Does `t` contain `p` as a substring? -/
def containsSub (p : LC) : LC → Bool
  | [] => startsWithLC p []
  | t :: ts => startsWithLC p (t :: ts) || containsSub p ts

/-! ## Scoring parser (src/evaluator.py, `PaperEvaluator.parse_evaluation`) -/

/-- After a label, the pattern `\s*(\d+)` : skip whitespace; the next
character must be a digit; the capture is the maximal digit run. -/
def matchNumAfter (rest : LC) : Option Nat :=
  let rest' := rest.dropWhile isPySpace
  match rest' with
  | c :: _ => if isPyDigit c then some (digitsToNat (rest'.takeWhile isPyDigit)) else none
  | [] => none

/-- Embedding of `re.search(r'LABEL:\s*(\d+)', text, re.IGNORECASE)` : scan left to right
for the first occurrence of the label (case-insensitive) that is followed,
after optional whitespace, by a digit run; return its value. -/
def findLabelNum (label : LC) : LC → Option Nat
  | [] => none
  | t :: ts =>
    if startsWithCI label (t :: ts) then
      match matchNumAfter ((t :: ts).drop label.length) with
      | some n => some n
      | none => findLabelNum label ts
    else findLabelNum label ts

/-- Embedding of `re.search(r'FEEDBACK:\s*(.+)', text, re.IGNORECASE | re.DOTALL)` followed
by `.group(1).strip()` : the text after the first `FEEDBACK:` that has at
least one following character, stripped. -/
def findFeedback : LC → Option LC
  | [] => none
  | t :: ts =>
    if startsWithCI ("feedback:".data) (t :: ts) then
      match (t :: ts).drop 9 with
      | [] => findFeedback ts
      | r :: rs => some (pyStrip (r :: rs))
    else findFeedback ts

structure EvalResult where
  relevance : Nat
  coherence : Nat
  factuality : Nat
  readability : Nat
  total : Nat
  feedback : LC
deriving DecidableEq, Repr

/-- Embedding of `PaperEvaluator.parse_evaluation` (src/evaluator.py lines 18-71).
Each sub-score defaults to 0 when its label is absent; `total` is taken
verbatim when the `TOTAL` label matches and otherwise computed as the sum
of the four sub-scores; `feedback` defaults to the empty string.  The
`try/except` in the source has no reachable raising path (`re.search`
returns `None` on failure and `int` is applied only to digit runs), so the
embedding is the `try` body. -/
def parse_evaluation (text : LC) : EvalResult :=
  let r := (findLabelNum ("relevance:".data) text).getD 0
  let c := (findLabelNum ("coherence:".data) text).getD 0
  let f := (findLabelNum ("factuality:".data) text).getD 0
  let rd := (findLabelNum ("readability:".data) text).getD 0
  let tot :=
    match findLabelNum ("total:".data) text with
    | some n => n
    | none => r + c + f + rd
  let fb := (findFeedback text).getD []
  ⟨r, c, f, rd, tot, fb⟩

/-! ## Markdown cleaning (src/latex_converter.py, `clean_markdown_formatting`)

The regex substitutions are transcribed as left-to-right scans with Python's
leftmost-match, non-overlapping `re.sub` semantics.  Scans whose recursion is
not structural take an explicit fuel argument (always called with the text
length, which strictly exceeds the number of scan steps), so that every
definition evaluates inside the kernel. -/

/-- Closing search for `\*\*(.+?)\*\*` (and `__(.+?)__`): the non-greedy
group takes the smallest run of non-newline characters (at least one) that
is immediately followed by the doubled delimiter. -/
def findCloseBold (d : Char) : LC → LC → Option (LC × LC)
  | acc, a :: b :: rest =>
    if a = d ∧ b = d ∧ acc ≠ [] then some (acc.reverse, rest)
    else if a = '\n' then none
    else findCloseBold d (a :: acc) (b :: rest)
  | _, _ => none

/-- Embedding of `re.sub(r'\*\*(.+?)\*\*', r'\1', text)` (and the `__` variant):
each matched pair of doubled delimiters is removed, keeping the content;
scanning resumes after the match, or one character on from a failed open. -/
def subBoldAux (d : Char) : Nat → LC → LC
  | 0, l => l
  | fuel + 1, a :: b :: rest =>
    if a = d ∧ b = d then
      match findCloseBold d [] rest with
      | some (content, rest') => content ++ subBoldAux d fuel rest'
      | none => a :: subBoldAux d fuel (b :: rest)
    else a :: subBoldAux d fuel (b :: rest)
  | _ + 1, l => l

def subBold (d : Char) (l : LC) : LC := subBoldAux d l.length l

/-- Closing search for the italic pattern `(?<!\*)\*(?!\*)(.+?)(?<!\*)\*(?!\*)`
(and the `_` variant): the smallest non-newline run (at least one character)
followed by a delimiter whose neighbours are not the delimiter. -/
def findCloseItalic (d : Char) : LC → LC → Option (LC × LC)
  | acc, c :: rest =>
    if c = d ∧ acc.head? ≠ some d ∧ rest.head? ≠ some d ∧ acc ≠ [] then
      some (acc.reverse, rest)
    else if c = '\n' then none
    else findCloseItalic d (c :: acc) rest
  | _, [] => none

/-- Embedding of `re.sub` for the italic pattern.  `prev` is the character before the scan
position in the original text (for the opening look-behind); after a match
the look-behind character is the closing delimiter itself. -/
def subItalicAux (d : Char) : Nat → Option Char → LC → LC
  | 0, _, l => l
  | fuel + 1, prev, c :: rest =>
    if c = d ∧ prev ≠ some d ∧ rest.head? ≠ some d then
      match findCloseItalic d [] rest with
      | some (content, rest') => content ++ subItalicAux d fuel (some d) rest'
      | none => c :: subItalicAux d fuel (some c) rest
    else c :: subItalicAux d fuel (some c) rest
  | _ + 1, _, [] => []

def subItalic (d : Char) (l : LC) : LC := subItalicAux d l.length none l

/-- The four emphasis-stripping substitutions, in source order:
`**`, `__`, then single `*`, single `_`. -/
def stripEmphasis (t : LC) : LC :=
  subItalic '_' (subItalic '*' (subBold '_' (subBold '*' t)))

/-- The remainder `\s+(.+)$` of a header pattern, applied after the hash
marks (flags `re.MULTILINE`; `\s` also matches newlines while `.` does not).
Returns the captured group and the text left after the match.  When the
whitespace run reaches the end of the text, the greedy `\s+` backtracks just
far enough to hand `(.+)` its last non-newline character. -/
def matchHeaderAfter (rest : LC) : Option (LC × LC) :=
  let ws := rest.takeWhile isPySpace
  if ws = [] then none
  else
    match rest.drop ws.length with
    | c :: cs => some ((c :: cs).takeWhile (fun x => x ≠ '\n'), (c :: cs).dropWhile (fun x => x ≠ '\n'))
    | [] =>
      match ws.reverse.dropWhile (fun x => x = '\n') with
      | c :: _ :: _ => some ([c], (ws.reverse.takeWhile (fun x => x = '\n')).reverse)
      | _ => none

/-- One header substitution pass, e.g. `re.sub(r'^###\s+(.+)$', r'\subsubsection{\1}',
text, flags=re.MULTILINE)`: at each line start, match the hash marks and the
rest of the pattern; on a match emit the replacement and resume after it. -/
def headerScan (hashes pre post : LC) : Nat → Bool → LC → LC
  | 0, _, l => l
  | fuel + 1, atStart, c :: rest =>
    if atStart ∧ startsWithLC hashes (c :: rest) then
      match matchHeaderAfter ((c :: rest).drop hashes.length) with
      | some (content, rest') =>
        pre ++ content ++ post ++ headerScan hashes pre post fuel false rest'
      | none => c :: headerScan hashes pre post fuel (c = '\n') rest
    else c :: headerScan hashes pre post fuel (c = '\n') rest
  | _ + 1, _, [] => []

/-- The three header substitutions in source order: `###`, then `##`, then `#`. -/
def headerPasses (t : LC) : LC :=
  let t1 := headerScan ("###".data) ("\\subsubsection\x7b".data) ("\x7d".data) t.length true t
  let t2 := headerScan ("##".data) ("\\subsection\x7b".data) ("\x7d".data) t1.length true t1
  headerScan ("#".data) ("\\section\x7b".data) ("\x7d".data) t2.length true t2

/-- Python `text.split('\n')`. -/
def splitNL : LC → List LC
  | [] => [[]]
  | '\n' :: rest => [] :: splitNL rest
  | c :: rest =>
    match splitNL rest with
    | l :: ls => (c :: l) :: ls
    | [] => [[c]]

/-- Python `'\n'.join(lines)`. -/
def joinNL (ls : List LC) : LC := List.intercalate ['\n'] ls

/-- Embedding of `re.match(r'^\s*[\*\-\+]\s+', line)`: leading whitespace, a bullet mark,
then at least one whitespace character. -/
def isBulletLine (l : LC) : Bool :=
  match l.dropWhile isPySpace with
  | c :: d :: _ => (c = '*' || c = '-' || c = '+') && isPySpace d
  | _ => false

/-- Embedding of `re.sub(r'^\s*[\*\-\+]\s+', r'\item ', line)` on a bullet line: the
(greedy) match — leading whitespace, the mark, the whitespace run after it —
is replaced by `\item `. -/
def itemLine (l : LC) : LC :=
  "\\item ".data ++ (((l.dropWhile isPySpace).drop 1).dropWhile isPySpace)

def beginItemize : LC := "\\begin\x7bitemize\x7d".data

def endItemize : LC := "\\end\x7bitemize\x7d".data

/-- The bullet-to-itemize loop of `clean_markdown_formatting`
(src/latex_converter.py lines 58-78), transcribed line by line: a bullet line
opens a block if none is open and becomes `\item ...`; a non-bullet line with
non-whitespace content closes an open block; any other line (in particular a
blank one) is passed through with the block state unchanged; a block still
open at the end is closed. -/
def bulletPassAux : Bool → List LC → List LC
  | inList, [] => if inList then [endItemize] else []
  | inList, l :: ls =>
    if isBulletLine l then
      (if inList then [itemLine l] else [beginItemize, itemLine l]) ++ bulletPassAux true ls
    else if inList ∧ pyStrip l ≠ [] then
      endItemize :: l :: bulletPassAux false ls
    else
      l :: bulletPassAux inList ls

def bulletPass (lines : List LC) : List LC := bulletPassAux false lines

/-- Embedding of `re.sub(r'\n{3,}', '\n\n', text)`: each run of three or more newlines
becomes exactly two. -/
def collapseNewlines : Nat → LC → LC
  | 0, l => l
  | fuel + 1, '\n' :: '\n' :: '\n' :: rest =>
    '\n' :: '\n' :: collapseNewlines fuel (rest.dropWhile (fun c => c = '\n'))
  | fuel + 1, c :: rest => c :: collapseNewlines fuel rest
  | _ + 1, [] => []

/-- Embedding of `re.sub(r' {2,}', ' ', text)`: each run of two or more spaces becomes one. -/
def collapseSpaces2 : Nat → LC → LC
  | 0, l => l
  | fuel + 1, ' ' :: ' ' :: rest => ' ' :: collapseSpaces2 fuel (rest.dropWhile (fun c => c = ' '))
  | fuel + 1, c :: rest => c :: collapseSpaces2 fuel rest
  | _ + 1, [] => []

/-- Embedding of `re.sub(r' +', ' ', text)`: each run of spaces becomes a single space. -/
def collapseSpaces1 : Nat → LC → LC
  | 0, l => l
  | fuel + 1, ' ' :: rest => ' ' :: collapseSpaces1 fuel (rest.dropWhile (fun c => c = ' '))
  | fuel + 1, c :: rest => c :: collapseSpaces1 fuel rest
  | _ + 1, [] => []

/-- Embedding of `LaTeXConverter.clean_markdown_formatting` (src/latex_converter.py
lines 32-88): emphasis stripping, header conversion, the bullet loop, blank
line and space collapsing, and a final `strip`. -/
def clean_markdown_formatting (text : LC) : LC :=
  let t1 := stripEmphasis text
  let t2 := headerPasses t1
  let t3 := joinNL (bulletPass (splitNL t2))
  let t4 := collapseNewlines t3.length t3
  let t5 := collapseSpaces2 t4.length t4
  pyStrip t5

/-! ## Section formatting (src/latex_converter.py, `format_section`) -/

/-- Embedding of `re.sub(rf'\\subsection\{{{pat}\}}\s*\n*', '', content, flags=re.IGNORECASE)`
(and the `\subsubsection` variant): remove every case-insensitive occurrence
of the literal command together with the whitespace run after it.  `pat` is
the already-lowercased literal text of the command. -/
def removeDupAux (pat : LC) : Nat → LC → LC
  | 0, l => l
  | fuel + 1, c :: rest =>
    if pat ≠ [] ∧ startsWithCI pat (c :: rest) then
      removeDupAux pat fuel (((c :: rest).drop pat.length).dropWhile isPySpace)
    else c :: removeDupAux pat fuel rest
  | _ + 1, [] => []

/-- Both duplicate-subheading removals of `format_section` (lines 134-136). -/
def removeDupHeadings (section_name content : LC) : LC :=
  let p1 := lowerLC ("\\subsection\x7b".data ++ section_name ++ "\x7d".data)
  let p2 := lowerLC ("\\subsubsection\x7b".data ++ section_name ++ "\x7d".data)
  let c1 := removeDupAux p1 content.length content
  removeDupAux p2 c1.length c1

/-- Python `text.split('\n\n')`: split at each non-overlapping occurrence. -/
def splitNN : LC → LC → List LC
  | acc, [] => [acc.reverse]
  | acc, '\n' :: '\n' :: rest => acc.reverse :: splitNN [] rest
  | acc, c :: rest => splitNN (c :: acc) rest

/-- Embedding of `re.match(r'^\\(sub)*section', s)`: a backslash, any number of `sub`
repetitions, then `section`, at the start of the text. -/
def dropSubs : LC → LC
  | 's' :: 'u' :: 'b' :: rest => dropSubs rest
  | l => l

def isSectionCmd (l : LC) : Bool :=
  match l with
  | '\\' :: rest => startsWithLC ("section".data) (dropSubs rest)
  | _ => false

/-- The three itemize-marker membership tests of line 159. -/
def hasItemizeMarker (p : LC) : Bool :=
  containsSub beginItemize p || containsSub endItemize p || containsSub ("\\item".data) p

/-- Embedding of `'\n'.join(line.strip() for line in para.split('\n'))`. -/
def stripLines (p : LC) : LC := joinNL ((splitNL p).map pyStrip)

/-- The per-paragraph body of the loop at lines 143-168 of `format_section`:
skip whitespace-only paragraphs and bare repetitions of the section name,
pass structural heading commands through stripped, and otherwise reflow
(newlines to spaces except around itemize markers), collapse space runs,
strip each line and the whole paragraph, keeping the result if non-empty. -/
def processPara (section_name p : LC) : Option LC :=
  let ps := pyStrip p
  if ps = [] then none
  else if lowerLC ps = lowerLC section_name then none
  else if isSectionCmd ps then some ps
  else
    let p1 := if hasItemizeMarker p then p else p.map (fun c => if c = '\n' then ' ' else c)
    let p2 := collapseSpaces1 p1.length p1
    let p3 := pyStrip (stripLines p2)
    if p3 = [] then none else some p3

def vspaceNoindent : LC := "\\vspace\x7b0.5em\x7d\n\\noindent ".data

/-- The spacing loop at lines 173-181: the first list element is emitted
plainly; each later paragraph not starting with a backslash is preceded by
the vertical-space and `\noindent` directive. -/
def addNoindentAux : Nat → List LC → List LC
  | _, [] => []
  | i, p :: ps =>
    (if p ≠ [] ∧ p.head? ≠ some '\\' then
      if i = 0 then p else vspaceNoindent ++ p
    else p) :: addNoindentAux (i + 1) ps

def joinNN (ls : List LC) : LC := List.intercalate ('\n' :: '\n' :: []) ls

/-- The whole content-processing pipeline of `format_section` (lines 129-187),
before the section-kind branching: markdown cleaning, duplicate-subheading
removal, the paragraph pass, paragraph re-joining with spacing directives,
and the final space/blank-line cleanup. -/
def processedContent (section_name content : LC) : LC :=
  let c1 := clean_markdown_formatting content
  let c2 := removeDupHeadings section_name c1
  let paras := (splitNN [] c2).filterMap (processPara section_name)
  let c3 := joinNN (addNoindentAux 0 paras)
  let c4 := collapseSpaces1 c3.length c3
  collapseNewlines c4.length c4

/-! ### References parsing (lines 193-221) -/

/-- After a `[`, the rest of `\[(\d+)\]`: a non-empty digit run then `]`. -/
def refBracketNum (l : LC) : Option (LC × LC) :=
  let ds := l.takeWhile isPyDigit
  if ds = [] then none
  else
    match l.drop ds.length with
    | ']' :: rest => some (ds, rest)
    | _ => none

/-- Embedding of `re.split(r'\[(\d+)\]\s*', content)`: the list of texts between matches
with the captured digit groups interleaved, each match also consuming the
whitespace after its closing bracket. -/
def refSplitAux (acc : LC) : Nat → LC → List LC
  | 0, l => [(l.reverse ++ acc).reverse]
  | fuel + 1, '[' :: rest =>
    (match refBracketNum rest with
     | some (ds, rest1) => acc.reverse :: ds :: refSplitAux [] fuel (rest1.dropWhile isPySpace)
     | none => refSplitAux ('[' :: acc) fuel rest)
  | fuel + 1, c :: rest => refSplitAux (c :: acc) fuel rest
  | _ + 1, [] => [acc.reverse]

/-- Python `str.split()` with no arguments: whitespace-run separated words. -/
def pyWords : Nat → LC → List LC
  | 0, _ => []
  | fuel + 1, l =>
    match l.dropWhile isPySpace with
    | [] => []
    | c :: cs =>
      ((c :: cs).takeWhile (fun x => ¬ isPySpace x))
        :: pyWords fuel ((c :: cs).dropWhile (fun x => ¬ isPySpace x))

/-- Embedding of `' '.join(text.split())`. -/
def normWS (l : LC) : LC := List.intercalate [' '] (pyWords l.length l)

/-- The extraction loop at lines 202-210: for each (number, text) pair after
the leading segment, strip the text and, when non-empty, whitespace-normalize
it into an entry. -/
def collectRefsAux : List LC → List LC
  | _num :: seg :: rest =>
    (let st := pyStrip seg
     if st = [] then [] else [normWS st]) ++ collectRefsAux rest
  | _ => []

def refEntries (content : LC) : List LC :=
  match refSplitAux [] content.length content with
  | _pre :: rest => collectRefsAux rest
  | [] => []

def mkSectionHeader (name : LC) : LC := "\\section\x7b".data ++ name ++ "\x7d\n".data

/-- Lines 213-218: `\section{name}` followed by an enumerate of the entries. -/
def bibBlock (name : LC) (entries : List LC) : LC :=
  mkSectionHeader name ++ "\\begin\x7benumerate\x7d\n".data
    ++ (entries.map (fun r => "\\item ".data ++ r ++ ['\n'])).flatten
    ++ "\\end\x7benumerate\x7d\n".data

/-- Embedding of `LaTeXConverter.format_section` (lines 118-224): process the content,
then branch on the section name — abstract block without a heading for
"Abstract", bracket-numbered bibliography (or paragraph fallback) for
"References"/"Bibliography", and an ordinary headed block otherwise. -/
def format_section (section_name content : LC) : LC :=
  let c := processedContent section_name content
  if lowerLC section_name = "abstract".data then
    "\\begin\x7babstract\x7d\n".data ++ c ++ "\n\\end\x7babstract\x7d\n".data
  else if lowerLC section_name = "references".data ∨ lowerLC section_name = "bibliography".data then
    let entries := refEntries c
    if entries = [] then mkSectionHeader section_name ++ c ++ ['\n']
    else bibBlock section_name entries
  else mkSectionHeader section_name ++ c ++ ['\n']

/-! ## Document assembly (src/latex_converter.py, `generate_latex`)

A Python dict with string keys is modelled as an association list in
insertion order (dict keys are unique, so at most one entry per key). -/

def packagesLC : List LC :=
  [ "\\usepackage[utf8]\x7binputenc\x7d".data,
    "\\usepackage[T1]\x7bfontenc\x7d".data,
    "\\usepackage\x7bamsmath\x7d".data,
    "\\usepackage\x7bgraphicx\x7d".data,
    "\\usepackage\x7bhyperref\x7d".data,
    "\\usepackage\x7bcite\x7d".data,
    "\\usepackage\x7bgeometry\x7d".data,
    "\\geometry\x7ba4paper, margin=1in\x7d".data,
    "\\usepackage\x7bsetspace\x7d".data,
    "\\setstretch\x7b1.15\x7d".data,
    "\\usepackage\x7btitlesec\x7d".data,
    "% Format section titles".data,
    "\\titleformat\x7b\\section\x7d\x7b\\normalfont\\Large\\bfseries\x7d\x7b\\thesection\x7d\x7b1em\x7d\x7b\x7d".data,
    "\\titleformat\x7b\\subsection\x7d\x7b\\normalfont\\large\\bfseries\x7d\x7b\\thesubsection\x7d\x7b1em\x7d\x7b\x7d".data,
    "\\titleformat\x7b\\subsubsection\x7d\x7b\\normalfont\\normalsize\\bfseries\x7d\x7b\\thesubsubsection\x7d\x7b1em\x7d\x7b\x7d".data ]

/-- The fixed document head of `generate_latex` (lines 246-263): document
class, packages and metadata through `\maketitle`. -/
def headerLines (title author date : LC) : List LC :=
  ["\\documentclass\x7barticle\x7d".data, [], "% Packages".data] ++ packagesLC ++
  [ [], "% Document metadata".data,
    "\\title\x7b".data ++ title ++ "\x7d".data,
    "\\author\x7b".data ++ author ++ "\x7d".data,
    "\\date\x7b".data ++ date ++ "\x7d".data,
    [], "\\begin\x7bdocument\x7d".data, [], "\\maketitle".data, [] ]

/-- The key scan at lines 270-273: the first key whose lowercase form is
`abstract`. -/
def findAbstractKey : List (LC × LC) → Option LC
  | [] => none
  | kv :: rest =>
    if lowerLC kv.1 = "abstract".data then some kv.1 else findAbstractKey rest

/-- Embedding of `remaining_sections.pop(abstract_key)` on the copied dict: remove the
entry with that key (at most one exists in a dict). -/
def eraseKeyFirst (k : LC) : List (LC × LC) → List (LC × LC)
  | [] => []
  | kv :: rest => if kv.1 = k then rest else kv :: eraseKeyFirst k rest

def lookupFirst (k : LC) : List (LC × LC) → Option LC
  | [] => none
  | kv :: rest => if kv.1 = k then some kv.2 else lookupFirst k rest

/-- The section loop at lines 281-290: each remaining section in input
order, with `\clearpage` inserted before a section named Introduction. -/
def bodyLines : List (LC × LC) → List LC
  | [] => []
  | (k, c) :: rest =>
    (if lowerLC k = "introduction".data then
      ("\\clearpage".data) :: format_section k c :: bodyLines rest
    else format_section k c :: bodyLines rest)

def endDocumentLine : LC := "\\end\x7bdocument\x7d".data

/-- Embedding of `LaTeXConverter.generate_latex` (lines 226-297) as its list of
`latex_content` elements: head, the extracted Abstract (formatted under the
literal name `Abstract`) if any key lowercases to `abstract`, the remaining
sections, and the document end. -/
def generateLatexLines (title : LC) (m : List (LC × LC)) (author date : LC) : List LC :=
  let hdr := headerLines title author date
  match findAbstractKey m with
  | some k =>
    hdr ++ (format_section ("Abstract".data) ((lookupFirst k m).getD []))
      :: bodyLines (eraseKeyFirst k m) ++ [endDocumentLine]
  | none => hdr ++ bodyLines m ++ [endDocumentLine]

/-- The returned document string: the elements joined with newlines. -/
def generate_latex (title : LC) (m : List (LC × LC)) (author date : LC) : LC :=
  joinNL (generateLatexLines title m author date)

structure LatexCall where
  document : LC
  callerMap : List (LC × LC)
deriving DecidableEq

/-- State-passing form of `generate_latex` for the frame property: the
source first copies the caller's dict (`remaining_sections =
dict(sections_content)`, line 268) and `pop`s the Abstract entry from the
copy only, so the call returns with the caller's mapping exactly as it was.
The second component is the caller's dict after the call. -/
def generateLatexTracked (title : LC) (m : List (LC × LC)) (author date : LC) : LatexCall :=
  let remaining := m
  let doc :=
    match findAbstractKey remaining with
    | some k =>
      joinNL (headerLines title author date
        ++ (format_section ("Abstract".data) ((lookupFirst k remaining).getD []))
          :: bodyLines (eraseKeyFirst k remaining) ++ [endDocumentLine])
    | none => joinNL (headerLines title author date ++ bodyLines remaining ++ [endDocumentLine])
  ⟨doc, m⟩

/-! ## Workflow orchestrator (src/workflow.py, `PaperWorkflow.run_workflow`)

The external generation and scoring services are modelled as oracles
indexed by the iteration number (one distinct response per call context):
`gen iter section feedback` is the text `PaperGenerator.generate_section`
obtains for a section, and `ev iter section content` is the parsed
`SectionEvaluation` that `PaperEvaluator.evaluate_section` obtains.  The
`while` loop, bounded by `MAX_ITERATIONS`, is transcribed as structural
recursion on the remaining iteration budget `maxIter - iteration`, with the
running `iteration` counter kept explicitly as in the source. -/

/-- Embedding of `PaperGenerator.generate_all_sections` (src/generator.py lines 48-74):
one generation per section in order; a section missing from the feedback
dict gets empty feedback. -/
def generate_all_sections (gen : LC → LC → LC → LC) (title : LC) (sections : List LC)
    (feedback_dict : List (LC × LC)) : List (LC × LC) :=
  sections.map (fun s => (s, gen title s ((lookupFirst s feedback_dict).getD [])))

/-- Embedding of `PaperEvaluator.evaluate_paper` (src/evaluator.py lines 108-132):
evaluate each section in map order and sum the per-section totals. -/
def evaluate_paper (ev : LC → LC → EvalResult) (content : List (LC × LC)) :
    List (LC × EvalResult) × Nat :=
  let evs := content.map (fun sc => (sc.1, ev sc.1 sc.2))
  (evs, (evs.map (fun se => se.2.total)).sum)

/-- The loop state returned to the code after the loop: final section
content, evaluations, total score and the iteration counter. -/
structure LoopResult where
  sections_content : List (LC × LC)
  evaluations : List (LC × EvalResult)
  total_score : Nat
  iteration : Nat
deriving DecidableEq

/-- The iterative improvement loop (src/workflow.py lines 76-133).
`remaining` is the loop budget `maxIter - iteration`; the Python guard
`while iteration < MAX_ITERATIONS` is `remaining > 0`.  Inside: increment
the counter, generate all sections from the current feedback dict, evaluate
them, stop when the total reaches the threshold or the counter reaches
`maxIter`, otherwise derive the next feedback dict from the evaluations. -/
def runLoopAux (gen : Nat → LC → LC → LC → LC) (ev : Nat → LC → LC → EvalResult)
    (title : LC) (sections : List LC) (threshold : Int) (maxIter : Nat) :
    Nat → Nat → List (LC × LC) → List (LC × LC) → List (LC × EvalResult) → Nat → LoopResult
  | 0, iteration, _, sections_content, evaluations, total_score =>
    ⟨sections_content, evaluations, total_score, iteration⟩
  | remaining + 1, iteration, feedback_dict, _, _, _ =>
    let it := iteration + 1
    let content := generate_all_sections (gen it) title sections feedback_dict
    let ep := evaluate_paper (ev it) content
    if threshold ≤ (ep.2 : Int) then ⟨content, ep.1, ep.2, it⟩
    else if maxIter ≤ it then ⟨content, ep.1, ep.2, it⟩
    else runLoopAux gen ev title sections threshold maxIter remaining it
      (ep.1.map (fun se => (se.1, se.2.feedback))) content ep.1 ep.2

/-- The input dict of `run_workflow`.  `feedback` is the field the serving
wrapper (src/api.py lines 99-103) places in `input_data`; `run_workflow`
reads only `title` and `sections` from the dict. -/
structure InputData where
  title : LC
  sections : List LC
  feedback : LC
deriving DecidableEq

structure WorkflowOutput where
  title : LC
  sections : List (LC × LC)
  evaluations : List (LC × EvalResult)
  total_score : Nat
  iterations : Nat
  threshold_met : Bool
  latex : LC
deriving DecidableEq

/-- Embedding of `PaperWorkflow.run_workflow` (src/workflow.py lines 39-165): reject an
empty section list, run the loop from iteration 0 with empty feedback, then
convert the final content to LaTeX and assemble the final output record.
`threshold` and `maxIter` stand for the `SCORE_THRESHOLD` and
`MAX_ITERATIONS` configuration constants (32 and 5 in src/config.py). -/
def run_workflow (gen : Nat → LC → LC → LC → LC) (ev : Nat → LC → LC → EvalResult)
    (input : InputData) (threshold : Int) (maxIter : Nat) :
    Except LC WorkflowOutput :=
  if input.sections = [] then .error ("No sections provided in input data".data)
  else
    let r := runLoopAux gen ev input.title input.sections threshold maxIter maxIter 0 [] [] [] 0
    .ok ⟨input.title, r.sections_content, r.evaluations, r.total_score, r.iteration,
      decide (threshold ≤ (r.total_score : Int)),
      generate_latex input.title r.sections_content ("Author Name".data) ("\\today".data)⟩

/-! ## Fixtures used in witnesses and counterexamples -/

/-- The six label words of the scoring protocol. -/
def protocolLabels : List LC :=
  ["relevance".data, "coherence".data, "factuality".data, "readability".data,
   "total".data, "feedback".data]

/-- A generation oracle returning fixed text. -/
def genFixed : Nat → LC → LC → LC → LC := fun _ _ _ _ => "text".data

/-- A scoring oracle returning an all-zero evaluation. -/
def evZero : Nat → LC → LC → EvalResult := fun _ _ _ => ⟨0, 0, 0, 0, 0, []⟩

/-- A generation oracle that reveals whether it received non-empty feedback. -/
def genProbe : Nat → LC → LC → LC → LC :=
  fun _ _ _ feedback => if feedback = [] then "A".data else "B".data

/-- The references text of the specification's concrete example. -/
def refsInput : LC := "[1] A. One. Title One. 2020.\n[2] B. Two. Title Two. 2021.".data

/-! ## Helper lemmas -/

theorem startsWithCI_append_left (p q : LC) : ∀ t, startsWithCI (p ++ q) t = true →
    startsWithCI p t = true := by
  induction p with
  | nil => intro t _; rfl
  | cons a ps ih =>
    intro t h
    cases t with
    | nil => simp [startsWithCI] at h
    | cons b ts =>
      simp only [List.cons_append, startsWithCI, Bool.and_eq_true] at h ⊢
      exact ⟨h.1, ih ts h.2⟩

theorem findLabelNum_some_contains (w : LC) (n : Nat) : ∀ t,
    findLabelNum (w ++ [':']) t = some n → containsCI w t = true := by
  intro t
  induction t with
  | nil => intro h; simp [findLabelNum] at h
  | cons c ts ih =>
    intro h
    rw [findLabelNum] at h
    by_cases hs : startsWithCI (w ++ [':']) (c :: ts) = true
    · have h1 : startsWithCI w (c :: ts) = true := startsWithCI_append_left w [':'] _ hs
      simp [containsCI, h1]
    · rw [if_neg hs] at h
      have h2 := ih h
      simp [containsCI, h2]

theorem findFeedback_some_contains (fb : LC) : ∀ t,
    findFeedback t = some fb → containsCI ("feedback".data) t = true := by
  intro t
  induction t with
  | nil => intro h; simp [findFeedback] at h
  | cons c ts ih =>
    intro h
    rw [findFeedback] at h
    by_cases hs : startsWithCI ("feedback:".data) (c :: ts) = true
    · have hsplit : ("feedback:".data : LC) = "feedback".data ++ [':'] := by decide
      have h1 : startsWithCI ("feedback".data) (c :: ts) = true := by
        refine startsWithCI_append_left ("feedback".data) [':'] _ ?_
        rw [← hsplit]; exact hs
      simp [containsCI, h1]
    · rw [if_neg hs] at h
      have h2 := ih h
      simp [containsCI, h2]

theorem findLabelNum_none_of_not_contains (w t : LC)
    (h : containsCI w t = false) : findLabelNum (w ++ [':']) t = none := by
  cases hx : findLabelNum (w ++ [':']) t with
  | none => rfl
  | some n => rw [findLabelNum_some_contains w n t hx] at h; cases h

theorem findFeedback_none_of_not_contains (t : LC)
    (h : containsCI ("feedback".data) t = false) : findFeedback t = none := by
  cases hx : findFeedback t with
  | none => rfl
  | some fb => rw [findFeedback_some_contains fb t hx] at h; cases h

/-! ## Claims C2, C3, C4 : the scoring parser -/

/-- C3: for every raw scoring text, each missing numeric label defaults that
sub-score to 0, and whenever the TOTAL label is absent the returned total
equals the sum of the four sub-scores (including any defaulted zeros). -/
theorem parse_missing_labels_default (t : LC) :
    (findLabelNum ("relevance:".data) t = none → (parse_evaluation t).relevance = 0)
    ∧ (findLabelNum ("coherence:".data) t = none → (parse_evaluation t).coherence = 0)
    ∧ (findLabelNum ("factuality:".data) t = none → (parse_evaluation t).factuality = 0)
    ∧ (findLabelNum ("readability:".data) t = none → (parse_evaluation t).readability = 0)
    ∧ (findLabelNum ("total:".data) t = none →
        (parse_evaluation t).total = (parse_evaluation t).relevance
          + (parse_evaluation t).coherence + (parse_evaluation t).factuality
          + (parse_evaluation t).readability) := by
  refine ⟨?_, ?_, ?_, ?_, ?_⟩ <;> intro h <;> simp [parse_evaluation, h]

/-- Witness for C3 at a concrete text having only a COHERENCE label: the
other sub-scores default to 0 and the total is the sub-score sum. -/
theorem parse_missing_labels_default_witness :
    (parse_evaluation ("COHERENCE: 7".data)).relevance = 0
    ∧ (parse_evaluation ("COHERENCE: 7".data)).total
        = (parse_evaluation ("COHERENCE: 7".data)).relevance
          + (parse_evaluation ("COHERENCE: 7".data)).coherence
          + (parse_evaluation ("COHERENCE: 7".data)).factuality
          + (parse_evaluation ("COHERENCE: 7".data)).readability :=
  ⟨(parse_missing_labels_default ("COHERENCE: 7".data)).1 (by decide),
   (parse_missing_labels_default ("COHERENCE: 7".data)).2.2.2.2 (by decide)⟩

/-- C4: for every raw scoring text in which the TOTAL label matches with
value `n`, the parser returns exactly `n` as the total, with no validation
against the sub-score sum. -/
theorem parse_total_verbatim (t : LC) (n : Nat)
    (h : findLabelNum ("total:".data) t = some n) :
    (parse_evaluation t).total = n := by
  simp [parse_evaluation, h]

/-- Witness for C4 at a text whose explicit TOTAL (99) disagrees with its
sub-score sum (5): the 99 is preserved verbatim. -/
theorem parse_total_verbatim_witness :
    (parse_evaluation ("RELEVANCE: 5\nTOTAL: 99".data)).total = 99
    ∧ (parse_evaluation ("RELEVANCE: 5\nTOTAL: 99".data)).relevance
      + (parse_evaluation ("RELEVANCE: 5\nTOTAL: 99".data)).coherence
      + (parse_evaluation ("RELEVANCE: 5\nTOTAL: 99".data)).factuality
      + (parse_evaluation ("RELEVANCE: 5\nTOTAL: 99".data)).readability = 5 :=
  ⟨parse_total_verbatim ("RELEVANCE: 5\nTOTAL: 99".data) 99 (by decide), by decide⟩

/-- Counterexample to C2 as stated: the text `hello` contains none of the
protocol labels, yet the parser returns the empty string as feedback, not
the raw text verbatim (the `except` branch of the source is unreachable:
`re.search` simply returns `None` on label-free text, so the feedback
default `""` survives). -/
theorem parse_no_labels_counterexample :
    (∀ l ∈ protocolLabels, containsCI l ("hello".data) = false)
    ∧ parse_evaluation ("hello".data) = ⟨0, 0, 0, 0, 0, []⟩
    ∧ parse_evaluation ("hello".data) ≠ ⟨0, 0, 0, 0, 0, "hello".data⟩ := by
  refine ⟨by decide, by decide, by decide⟩

/-- C2 as amended: for every raw scoring text containing none of the
protocol labels, the parser returns an evaluation with all sub-scores and
the total equal to 0 and with feedback equal to the empty string (and being
a total function, it never raises). -/
theorem parse_no_labels_all_zero (t : LC)
    (h : ∀ l ∈ protocolLabels, containsCI l t = false) :
    parse_evaluation t = ⟨0, 0, 0, 0, 0, []⟩ := by
  have e1 : ("relevance:".data : LC) = "relevance".data ++ [':'] := by decide
  have e2 : ("coherence:".data : LC) = "coherence".data ++ [':'] := by decide
  have e3 : ("factuality:".data : LC) = "factuality".data ++ [':'] := by decide
  have e4 : ("readability:".data : LC) = "readability".data ++ [':'] := by decide
  have e5 : ("total:".data : LC) = "total".data ++ [':'] := by decide
  have h1 := findLabelNum_none_of_not_contains ("relevance".data) t
    (h _ (by simp [protocolLabels]))
  have h2 := findLabelNum_none_of_not_contains ("coherence".data) t
    (h _ (by simp [protocolLabels]))
  have h3 := findLabelNum_none_of_not_contains ("factuality".data) t
    (h _ (by simp [protocolLabels]))
  have h4 := findLabelNum_none_of_not_contains ("readability".data) t
    (h _ (by simp [protocolLabels]))
  have h5 := findLabelNum_none_of_not_contains ("total".data) t
    (h _ (by simp [protocolLabels]))
  have h6 := findFeedback_none_of_not_contains t (h _ (by simp [protocolLabels]))
  rw [← e1] at h1; rw [← e2] at h2; rw [← e3] at h3; rw [← e4] at h4; rw [← e5] at h5
  simp [parse_evaluation, h1, h2, h3, h4, h5, h6]

/-- Witness for the amended C2 at the label-free text `xy z`. -/
theorem parse_no_labels_all_zero_witness :
    parse_evaluation ("xy z".data) = ⟨0, 0, 0, 0, 0, []⟩ :=
  parse_no_labels_all_zero ("xy z".data) (by decide)

/-! ## Claims C1, C9, C6 : the orchestrator loop -/

theorem runLoopAux_iteration_bounds (gen : Nat → LC → LC → LC → LC)
    (ev : Nat → LC → LC → EvalResult) (title : LC) (sections : List LC)
    (threshold : Int) (maxIter : Nat) :
    ∀ remaining iteration fb sc evs ts, remaining + iteration = maxIter →
    (runLoopAux gen ev title sections threshold maxIter remaining iteration fb sc evs ts).iteration
        ≤ maxIter
    ∧ (1 ≤ remaining →
        iteration + 1 ≤
        (runLoopAux gen ev title sections threshold maxIter remaining iteration fb sc evs ts).iteration) := by
  intro remaining
  induction remaining with
  | zero =>
    intro iteration fb sc evs ts hsum
    simp only [runLoopAux]
    omega
  | succ r ih =>
    intro iteration fb sc evs ts hsum
    simp only [runLoopAux]
    split
    · simp; omega
    · split
      · simp; omega
      · rename_i hthr hmax
        have hlt : iteration + 1 < maxIter := by omega
        have h1r : 1 ≤ r := by omega
        have := ih (iteration + 1)
          ((evaluate_paper (ev (iteration + 1))
            (generate_all_sections (gen (iteration + 1)) title sections fb)).1.map
              (fun se => (se.1, se.2.feedback)))
          (generate_all_sections (gen (iteration + 1)) title sections fb)
          (evaluate_paper (ev (iteration + 1))
            (generate_all_sections (gen (iteration + 1)) title sections fb)).1
          (evaluate_paper (ev (iteration + 1))
            (generate_all_sections (gen (iteration + 1)) title sections fb)).2
          (by omega)
        exact ⟨this.1, fun _ => by have := this.2 h1r; omega⟩

/-- C1: for every request with a non-empty section list, any oracles, any
threshold (including one no finite score reaches) and any positive
iteration budget, the workflow terminates with a result (the loop is a
total function) whose reported iteration count satisfies
`1 ≤ iterations ≤ maxIter`. -/
theorem workflow_iteration_bounds (gen : Nat → LC → LC → LC → LC)
    (ev : Nat → LC → LC → EvalResult) (input : InputData) (threshold : Int)
    (maxIter : Nat) (h1 : 1 ≤ maxIter) (h2 : input.sections ≠ []) :
    ∃ out, run_workflow gen ev input threshold maxIter = .ok out
      ∧ 1 ≤ out.iterations ∧ out.iterations ≤ maxIter := by
  unfold run_workflow
  rw [if_neg h2]
  refine ⟨_, rfl, ?_, ?_⟩
  · exact (runLoopAux_iteration_bounds gen ev input.title input.sections threshold maxIter
      maxIter 0 [] [] [] 0 (by omega)).2 h1
  · exact (runLoopAux_iteration_bounds gen ev input.title input.sections threshold maxIter
      maxIter 0 [] [] [] 0 (by omega)).1

/-- Witness for C1: with an unreachably high threshold the loop still
terminates, and its iteration count lies in `[1, 3]`. -/
theorem workflow_iteration_bounds_witness :
    ∃ out, run_workflow genFixed evZero ⟨"T".data, ["S".data], []⟩ 1000000 3 = .ok out
      ∧ 1 ≤ out.iterations ∧ out.iterations ≤ 3 :=
  workflow_iteration_bounds genFixed evZero ⟨"T".data, ["S".data], []⟩ 1000000 3
    (by decide) (by decide)

/-- C9: for every request whose section list is empty, `run_workflow` fails
with the configuration error before any service call: the result is the
same error for arbitrary generation and scoring oracles, so no oracle is
ever consulted and no iteration is performed. -/
theorem empty_sections_config_error (gen : Nat → LC → LC → LC → LC)
    (ev : Nat → LC → LC → EvalResult) (input : InputData) (threshold : Int)
    (maxIter : Nat) (h : input.sections = []) :
    run_workflow gen ev input threshold maxIter
      = .error ("No sections provided in input data".data) := by
  unfold run_workflow
  rw [if_pos h]

/-- Witness for C9 at a concrete empty-section request. -/
theorem empty_sections_config_error_witness :
    run_workflow genFixed evZero ⟨"T".data, [], "fb".data⟩ 32 5
      = .error ("No sections provided in input data".data) :=
  empty_sections_config_error genFixed evZero ⟨"T".data, [], "fb".data⟩ 32 5 rfl

/-- Counterexample to C6 as stated: a request supplying the initial
feedback `improve` still has its first iteration generated with empty
feedback.  With the probing oracle (which returns `A` on empty feedback
and `B` otherwise) the run ends after one iteration with content `A`,
whereas generation under the claimed feedback map (the supplied feedback
applied to all sections) would yield `B`. -/
theorem initial_feedback_ignored_counterexample :
    (run_workflow genProbe evZero ⟨"T".data, ["S".data], "improve".data⟩ 0 5).toOption.map
        (fun o => (o.sections, o.iterations))
      = some ([("S".data, "A".data)], 1)
    ∧ generate_all_sections (genProbe 1) ("T".data) ["S".data]
        [("S".data, "improve".data)] = [("S".data, "B".data)]
    ∧ ("A".data : LC) ≠ ("B".data : LC) := by
  refine ⟨by decide, by decide, by decide⟩

/-- C6 as amended: the workflow ignores the caller-supplied initial
feedback field entirely — a run behaves identically with any feedback field
value — and the first iteration's generation always uses the empty feedback
map (observable in the result whenever the budget is one iteration). -/
theorem initial_feedback_ignored (gen : Nat → LC → LC → LC → LC)
    (ev : Nat → LC → LC → EvalResult) (title : LC) (sections : List LC)
    (fb : LC) (threshold : Int) (maxIter : Nat) :
    run_workflow gen ev ⟨title, sections, fb⟩ threshold maxIter
      = run_workflow gen ev ⟨title, sections, []⟩ threshold maxIter
    ∧ (sections ≠ [] →
        (run_workflow gen ev ⟨title, sections, fb⟩ threshold 1).toOption.map
            (fun o => o.sections)
          = some (generate_all_sections (gen 1) title sections [])) := by
  constructor
  · rfl
  · intro h
    unfold run_workflow
    rw [if_neg h]
    simp only [runLoopAux]
    split
    · rfl
    · split
      · rfl
      · omega

/-- Witness for the amended C6: a concrete one-iteration run with non-empty
initial feedback still generates from the empty feedback map. -/
theorem initial_feedback_ignored_witness :
    run_workflow genProbe evZero ⟨"T".data, ["S".data], "improve".data⟩ 32 4
      = run_workflow genProbe evZero ⟨"T".data, ["S".data], []⟩ 32 4
    ∧ (run_workflow genProbe evZero ⟨"T".data, ["S".data], "improve".data⟩ 32 1).toOption.map
        (fun o => o.sections)
      = some (generate_all_sections (genProbe 1) ("T".data) ["S".data] []) :=
  ⟨(initial_feedback_ignored genProbe evZero ("T".data) ["S".data] ("improve".data) 32 4).1,
   (initial_feedback_ignored genProbe evZero ("T".data) ["S".data] ("improve".data) 32 1).2
     (by decide)⟩

/-! ## Claim C7 : the bullet-list pass -/

theorem bulletPassAux_run_open : ∀ run ls, (∀ x ∈ run, isBulletLine x = true) →
    bulletPassAux true (run ++ ls) = run.map itemLine ++ bulletPassAux true ls := by
  intro run
  induction run with
  | nil => intro ls _; rfl
  | cons x rest ih =>
    intro ls h
    have hx : isBulletLine x = true := h x (List.mem_cons_self x rest)
    simp only [List.cons_append, bulletPassAux, hx, if_true, List.map_cons, List.append_eq]
    rw [ih ls (fun y hy => h y (List.mem_cons_of_mem x hy))]
    rfl

/-- Counterexample to C7 as stated: on the lines `- a`, blank, `- b` the
cleaning pass emits a single itemize block spanning the blank line — the
blank line does not close the open block (the source closes only on
`in_list and line.strip()`), whereas the claim predicts two blocks. -/
theorem blank_line_keeps_list_open_counterexample :
    bulletPass ["- a".data, [], "- b".data]
      = [beginItemize, "\\item a".data, [], "\\item b".data, endItemize]
    ∧ bulletPass ["- a".data, [], "- b".data]
      ≠ [beginItemize, "\\item a".data, endItemize, [],
         beginItemize, "\\item b".data, endItemize] := by
  refine ⟨by decide, by decide⟩

/-- C7 as amended: every contiguous run of bullet-marked lines is emitted
inside a single unordered-list block (one opening marker, one `\item` per
line, block left open for what follows); a non-bullet line with non-blank
content closes an open block; a blank (whitespace-only) line does not close
it, so bullet runs separated only by blank lines share one block. -/
theorem bullet_run_single_block (run : List LC) (l : LC) (ls : List LC)
    (hrun : ∀ x ∈ run, isBulletLine x = true) (hne : run ≠ []) :
    bulletPassAux false (run ++ ls)
      = beginItemize :: (run.map itemLine ++ bulletPassAux true ls)
    ∧ (isBulletLine l = false → pyStrip l ≠ [] →
        bulletPassAux true (l :: ls) = endItemize :: l :: bulletPassAux false ls)
    ∧ (isBulletLine l = false → pyStrip l = [] →
        bulletPassAux true (l :: ls) = l :: bulletPassAux true ls) := by
  refine ⟨?_, ?_, ?_⟩
  · match run, hne with
    | x :: rest, _ =>
      have hx : isBulletLine x = true := hrun x (List.mem_cons_self x rest)
      simp only [List.cons_append, bulletPassAux, hx, if_true, List.map_cons, List.append_eq]
      rw [bulletPassAux_run_open rest ls (fun y hy => hrun y (List.mem_cons_of_mem x hy))]
      rfl
  · intro hl hstrip
    simp [bulletPassAux, hl, hstrip]
  · intro hl hstrip
    simp [bulletPassAux, hl, hstrip]

/-- Witness for the amended C7: a one-line bullet run opens a single block;
a non-blank line closes an open block while a whitespace-only line keeps it
open. -/
theorem bullet_run_single_block_witness :
    bulletPassAux false (["- a".data] ++ [])
      = beginItemize :: (["- a".data].map itemLine ++ bulletPassAux true [])
    ∧ bulletPassAux true ("x".data :: []) = endItemize :: "x".data :: bulletPassAux false []
    ∧ bulletPassAux true (" ".data :: []) = " ".data :: bulletPassAux true [] :=
  ⟨(bullet_run_single_block ["- a".data] ("x".data) []
      (by decide) (by decide)).1,
   (bullet_run_single_block ["- a".data] ("x".data) []
      (by decide) (by decide)).2.1 (by decide) (by decide),
   (bullet_run_single_block ["- a".data] (" ".data) []
      (by decide) (by decide)).2.2 (by decide) (by decide)⟩

/-! ## Claim C5 : abstract placement -/

theorem findAbstractKey_decomp (pre post : List (LC × LC)) (k c : LC)
    (hpre : ∀ p ∈ pre, lowerLC p.1 ≠ "abstract".data)
    (hk : lowerLC k = "abstract".data) :
    findAbstractKey (pre ++ (k, c) :: post) = some k := by
  induction pre with
  | nil => simp [findAbstractKey, hk]
  | cons p ps ih =>
    simp only [List.cons_append, findAbstractKey]
    rw [if_neg (hpre p (List.mem_cons_self p ps))]
    exact ih (fun q hq => hpre q (List.mem_cons_of_mem p hq))

theorem lookupFirst_decomp (pre post : List (LC × LC)) (k c : LC)
    (hpre : ∀ p ∈ pre, p.1 ≠ k) :
    lookupFirst k (pre ++ (k, c) :: post) = some c := by
  induction pre with
  | nil => simp [lookupFirst]
  | cons p ps ih =>
    simp only [List.cons_append, lookupFirst]
    rw [if_neg (hpre p (List.mem_cons_self p ps))]
    exact ih (fun q hq => hpre q (List.mem_cons_of_mem p hq))

theorem eraseKeyFirst_decomp (pre post : List (LC × LC)) (k c : LC)
    (hpre : ∀ p ∈ pre, p.1 ≠ k) :
    eraseKeyFirst k (pre ++ (k, c) :: post) = pre ++ post := by
  induction pre with
  | nil => simp [eraseKeyFirst]
  | cons p ps ih =>
    simp only [List.cons_append, eraseKeyFirst, List.append_eq]
    rw [if_neg (hpre p (List.mem_cons_self p ps))]
    rw [ih (fun q hq => hpre q (List.mem_cons_of_mem p hq))]

theorem format_section_headed (name c : LC) (h : lowerLC name ≠ "abstract".data) :
    ∃ rest, format_section name c
      = "\\section\x7b".data ++ name ++ "\x7d\n".data ++ rest := by
  unfold format_section
  rw [if_neg h]
  by_cases h2 : lowerLC name = "references".data ∨ lowerLC name = "bibliography".data
  · rw [if_pos h2]
    by_cases h3 : refEntries (processedContent name c) = []
    · rw [if_pos h3]
      exact ⟨processedContent name c ++ ['\n'], by simp [mkSectionHeader, List.append_assoc]⟩
    · rw [if_neg h3]
      refine ⟨"\\begin\x7benumerate\x7d\n".data
        ++ ((refEntries (processedContent name c)).map
            (fun r => "\\item ".data ++ r ++ ['\n'])).flatten
        ++ "\\end\x7benumerate\x7d\n".data, ?_⟩
      simp [bibBlock, mkSectionHeader, List.append_assoc]
  · rw [if_neg h2]
    exact ⟨processedContent name c ++ ['\n'], by simp [mkSectionHeader, List.append_assoc]⟩

/-- Counterexample to C5 as stated: with the two differently-cased keys
`Abstract` and `ABSTRACT`, the first is extracted to the front but the
remaining section `ABSTRACT` is then emitted in place as a second unheaded
abstract block, not as a headed block as the claim requires of all
remaining sections. -/
theorem abstract_second_key_counterexample :
    findAbstractKey [("Abstract".data, "a".data), ("ABSTRACT".data, "b".data)]
      = some ("Abstract".data)
    ∧ eraseKeyFirst ("Abstract".data)
        [("Abstract".data, "a".data), ("ABSTRACT".data, "b".data)]
      = [("ABSTRACT".data, "b".data)]
    ∧ bodyLines [("ABSTRACT".data, "b".data)]
      = [format_section ("ABSTRACT".data) ("b".data)]
    ∧ format_section ("ABSTRACT".data) ("b".data)
      = "\\begin\x7babstract\x7d\nb\n\\end\x7babstract\x7d\n".data
    ∧ startsWithLC ("\\section".data) (format_section ("ABSTRACT".data) ("b".data)) = false := by
  refine ⟨by decide, by decide, by decide, by decide, by decide⟩

/-- C5 as amended: for every section map whose unique Abstract-cased entry
sits at an arbitrary position, the generated document consists of the fixed
head, then that section formatted as an abstract block with no heading
text, then the remaining sections in their original input order, each a
headed block, then the document end. -/
theorem abstract_front_placement (title author date : LC) (pre post : List (LC × LC))
    (k c : LC)
    (hpre : ∀ p ∈ pre, lowerLC p.1 ≠ "abstract".data)
    (hpost : ∀ p ∈ post, lowerLC p.1 ≠ "abstract".data)
    (hk : lowerLC k = "abstract".data) :
    generateLatexLines title (pre ++ (k, c) :: post) author date
      = headerLines title author date
        ++ format_section ("Abstract".data) c :: bodyLines (pre ++ post)
        ++ [endDocumentLine]
    ∧ format_section ("Abstract".data) c
      = "\\begin\x7babstract\x7d\n".data ++ processedContent ("Abstract".data) c
        ++ "\n\\end\x7babstract\x7d\n".data
    ∧ ∀ p ∈ pre ++ post, ∃ rest, format_section p.1 p.2
        = "\\section\x7b".data ++ p.1 ++ "\x7d\n".data ++ rest := by
  have hkey : ∀ p ∈ pre, p.1 ≠ k := by
    intro p hp heq
    exact hpre p hp (heq ▸ hk)
  refine ⟨?_, ?_, ?_⟩
  · simp only [generateLatexLines, findAbstractKey_decomp pre post k c hpre hk,
      lookupFirst_decomp pre post k c hkey, eraseKeyFirst_decomp pre post k c hkey,
      Option.getD_some]
  · unfold format_section
    rw [if_pos (by decide : lowerLC ("Abstract".data) = "abstract".data)]
  · intro p hp
    rcases List.mem_append.mp hp with h1 | h2
    · exact format_section_headed p.1 p.2 (hpre p h1)
    · exact format_section_headed p.1 p.2 (hpost p h2)

/-- Witness for the amended C5: an Abstract entry listed second is still
emitted first, right after the document head. -/
theorem abstract_front_placement_witness :
    generateLatexLines ("T".data)
        ([("Intro".data, "i".data)] ++ ("ABSTRACT".data, "b".data) :: [])
        ("Author Name".data) ("\\today".data)
      = headerLines ("T".data) ("Author Name".data) ("\\today".data)
        ++ format_section ("Abstract".data) ("b".data)
          :: bodyLines ([("Intro".data, "i".data)] ++ [])
        ++ [endDocumentLine] :=
  (abstract_front_placement ("T".data) ("Author Name".data) ("\\today".data)
    [("Intro".data, "i".data)] [] ("ABSTRACT".data) ("b".data)
    (by decide) (by decide) (by decide)).1

/-! ## Claim C8 : references enumeration -/

theorem collectRefs_shape : ∀ parts, ∀ e ∈ collectRefsAux parts, ∃ s, e = normWS (pyStrip s)
  | [] => by simp [collectRefsAux]
  | [a] => by simp [collectRefsAux]
  | a :: b :: rest => by
    intro e he
    simp only [collectRefsAux] at he
    rcases List.mem_append.mp he with h1 | h2
    · by_cases hb : pyStrip b = []
      · rw [if_pos hb] at h1
        cases h1
      · rw [if_neg hb] at h1
        rcases List.mem_singleton.mp h1 with rfl
        exact ⟨b, rfl⟩
    · exact collectRefs_shape rest e h2

theorem refEntries_shape (t : LC) : ∀ e ∈ refEntries t, ∃ s, e = normWS (pyStrip s) := by
  intro e he
  unfold refEntries at he
  rcases hsplit : refSplitAux [] t.length t with _ | ⟨pre, rest⟩
  · rw [hsplit] at he; cases he
  · rw [hsplit] at he
    exact collectRefs_shape rest e he

/-- C8: for every section named References or Bibliography under any
casing, when bracket-numbered entries are found in the processed content
the converter emits the section heading followed by an enumerate with one
item per entry (each entry a stripped, whitespace-normalized segment with
the bracket number removed); when none are found, the section falls back to
the ordinary headed paragraph form. -/
theorem references_enumeration (name content : LC)
    (h : lowerLC name = "references".data ∨ lowerLC name = "bibliography".data) :
    (refEntries (processedContent name content) ≠ [] →
      format_section name content
        = bibBlock name (refEntries (processedContent name content)))
    ∧ (refEntries (processedContent name content) = [] →
      format_section name content
        = mkSectionHeader name ++ processedContent name content ++ ['\n'])
    ∧ ∀ e ∈ refEntries (processedContent name content), ∃ s, e = normWS (pyStrip s) := by
  have hne : lowerLC name ≠ "abstract".data := by
    rcases h with h | h <;> rw [h] <;> decide
  refine ⟨?_, ?_, refEntries_shape (processedContent name content)⟩
  · intro h1
    unfold format_section
    rw [if_neg hne, if_pos h, if_neg h1]
  · intro h1
    unfold format_section
    rw [if_neg hne, if_pos h, if_pos h1]

/-- Witness for C8 at the specification's concrete example: exactly the two
entries with bracket numbers stripped, emitted as heading plus enumerate. -/
theorem references_enumeration_witness :
    refEntries (processedContent ("References".data) refsInput)
      = ["A. One. Title One. 2020.".data, "B. Two. Title Two. 2021.".data]
    ∧ format_section ("References".data) refsInput
      = bibBlock ("References".data) (refEntries (processedContent ("References".data) refsInput))
    ∧ bibBlock ("References".data)
        ["A. One. Title One. 2020.".data, "B. Two. Title Two. 2021.".data]
      = ("\\section\x7bReferences\x7d\n\\begin\x7benumerate\x7d\n\\item A. One. Title One. 2020.\n\\item B. Two. Title Two. 2021.\n\\end\x7benumerate\x7d\n".data) :=
  ⟨by decide,
   (references_enumeration ("References".data) refsInput (Or.inl (by decide))).1 (by decide),
   by decide⟩

/-! ## Claim C10 : the input map is not modified -/

/-- C10: generating the document leaves the caller's section map unchanged
(the source copies the dict and pops the Abstract entry from the copy
only), and the document produced from the untouched map is exactly
`generate_latex`'s result. -/
theorem generate_latex_preserves_input (title : LC) (m : List (LC × LC)) (author date : LC) :
    (generateLatexTracked title m author date).callerMap = m
    ∧ (generateLatexTracked title m author date).document
      = generate_latex title m author date := by
  constructor
  · rfl
  · cases hf : findAbstractKey m with
    | some k => simp [generateLatexTracked, generate_latex, generateLatexLines, hf]
    | none => simp [generateLatexTracked, generate_latex, generateLatexLines, hf]
